import Mathlib

/-!
Shallow embedding of `ckanext-cloudstorage` (files
`ckanext/cloudstorage/storage.py` and `ckanext/cloudstorage/config.py`).

The adapter delegates to external systems (apache-libcloud, hashlib,
the azure / boto3 SDKs, CKAN's `munge`, the database session).  Those
externals are modelled as abstract function-valued fields of an `Env`
record; the control flow of the adapter itself (class `CloudStorage` /
`ResourceCloudStorage`) is transcribed faithfully from the Python source.

Bytes are modelled as `Nat`, byte strings as `List Nat`.  A readable
binary stream (`fobj` in the source) is a `ByteStream`: its full data
plus the current read offset.  The libcloud container is an association
list from object names to stored objects; `get_object` raising
`ObjectDoesNotExistError` corresponds to lookup returning `none`.
-/

set_option autoImplicit false

namespace Cloudstorage

/-- A stored object in the libcloud container: `obj.size`, `obj.hash`
and the undocumented `obj.extra["url"]` used by the Azure driver. -/
structure StoredObj where
  size : Nat
  hash : String
  extra_url : Option String
  deriving DecidableEq, Repr

/-- The libcloud container, as an association list from object name to
object.  `get_object` is lookup of the first matching key. -/
def Container := List (String × StoredObj)

/-- Model of `container.get_object(name)`: `some obj` on success, `none` for
`ObjectDoesNotExistError`. -/
def lookupC (c : Container) (name : String) : Option StoredObj :=
  match c with
  | [] => none
  | (k, v) :: rest => if k = name then some v else lookupC rest name

/-- The container after a successful `upload_object_via_stream` storing
`obj` under `name` (the provider replaces any object under that name). -/
def insertC (c : Container) (name : String) (obj : StoredObj) : Container :=
  (name, obj) :: (List.filter (fun kv => kv.1 ≠ name) c)

/-- The container after `delete_object` of the object stored under `name`. -/
def eraseC (c : Container) (name : String) : Container :=
  List.filter (fun kv => kv.1 ≠ name) c

/-- Configuration and external dependencies of the adapter.  The first
block mirrors `config.py` (settings read from the CKAN config); the
second block models the external libraries the adapter calls, as
abstract functions. -/
structure Env where
  /-- Setting `config.driver()`, e.g. `"AZURE_BLOBS"` or `"S3_US_EAST2"`. -/
  driver_name : String
  /-- the keys of `config.options()`, the dict passed to the driver
  (only membership of `"host"` is inspected by the adapter's logic). -/
  driver_option_keys : List String
  /-- Setting `config.container()`. -/
  container_name : String
  /-- Setting `config.use_secure()`. -/
  use_secure_urls : Bool
  /-- Setting `config.leave_files()`. -/
  leave_files : Bool
  /-- Setting `config.guess_mimetype()`. -/
  guess_mimetype : Bool
  /-- Setting `config.secure_ttl()`, in seconds. -/
  secure_ttl : Nat
  /-- whether `from azure import storage` succeeds. -/
  azure_pkg : Bool
  /-- whether `import boto3` succeeds. -/
  boto3_pkg : Bool
  /-- Digest `hashlib.md5(bs).hexdigest()` for a byte string `bs`. -/
  md5hex : List Nat → String
  /-- Conversion `binascii.unhexlify(s)`. -/
  unhexlify : String → List Nat
  /-- Function `ckan.lib.munge.munge_filename`. -/
  munge : String → String
  /-- Result of `os.path.isfile(name)` / `os.path.getsize(name)` in the server's
  working directory: `some size` if a local file of that name exists. -/
  localFileSize : String → Option Nat
  /-- the object the provider records after `upload_object_via_stream`
  of the given contents. -/
  storedOf : List Nat → StoredObj
  /-- whether `driver.get_object_cdn_url` is implemented (otherwise it
  raises `NotImplementedError`). -/
  cdnSupported : Bool
  /-- Value of `driver.get_object_cdn_url(obj)` for the object under a name. -/
  cdnUrlOf : String → StoredObj → String
  /-- Value of `driver.connection.host`. -/
  connectionHost : String
  /-- Value of `mimetypes.guess_type(name)`, first component. -/
  guessType : String → Option String
  /-- Value of `model.Session.query(model.Resource).get(id).url` (the database). -/
  dbUrl : String → Option String

/-- Python string containment (`needle in haystack`): some contiguous slice of
the haystack equals the needle. -/
def strContains (needle hay : String) : Bool :=
  (List.range (hay.data.length + 1)).any fun i =>
    (hay.data.drop i).take needle.data.length == needle.data

/-- Truthiness of an optional string (`None` and `""` are falsy). -/
def truthyOpt : Option String → Bool
  | none => false
  | some s => !s.isEmpty

/-- Property `CloudStorage.can_use_advanced_azure`: driver is `AZURE_BLOBS` and
the `azure-storage` package imports. -/
def can_use_advanced_azure (env : Env) : Bool :=
  env.driver_name = "AZURE_BLOBS" && env.azure_pkg

/-- Property `CloudStorage.can_use_advanced_aws`: `"S3"` occurs in the driver
name, the driver options contain a `"host"` key, and `boto3` imports. -/
def can_use_advanced_aws (env : Env) : Bool :=
  strContains "S3" env.driver_name
    && List.contains env.driver_option_keys "host"
    && env.boto3_pkg

/-- Constant `AWS_UPLOAD_PART_SIZE = 5 * 1024 * 1024`. -/
def AWS_UPLOAD_PART_SIZE : Nat := 5 * 1024 * 1024

/-- A readable binary stream: full contents plus current read offset. -/
structure ByteStream where
  data : List Nat
  pos : Nat
  deriving DecidableEq, Repr

/-- Model of `fobj.read(n)`: the next `n` bytes (fewer at end of stream), and
the advanced stream. -/
def streamRead (s : ByteStream) (n : Nat) : List Nat × ByteStream :=
  let block := (s.data.drop s.pos).take n
  (block, { s with pos := s.pos + block.length })

/-- The `while` loop of `_md5sum`: reads `AWS_UPLOAD_PART_SIZE`-byte
blocks, counting the non-empty blocks and appending the unhexlified MD5
digest of each to `acc` (`md5string` in the source). -/
def md5sumLoop (env : Env) (s : ByteStream) (count : Nat) (acc : List Nat) :
    Nat × List Nat × ByteStream :=
  if h : (s.data.drop s.pos).take AWS_UPLOAD_PART_SIZE = [] then
    (count, acc, s)
  else
    md5sumLoop env
      { s with
        pos := s.pos + ((s.data.drop s.pos).take AWS_UPLOAD_PART_SIZE).length }
      (count + 1)
      (acc ++ env.unhexlify (env.md5hex
        ((s.data.drop s.pos).take AWS_UPLOAD_PART_SIZE)))
termination_by s.data.length - s.pos
decreasing_by
  simp only [List.length_take, List.length_drop]
  rcases Nat.eq_zero_or_pos (List.length s.data - s.pos) with h0 | h0
  · exfalso
    apply h
    have : List.length ((s.data.drop s.pos).take AWS_UPLOAD_PART_SIZE) = 0 := by
      simp only [List.length_take, List.length_drop]
      omega
    exact List.length_eq_zero.mp this
  · have hA : 0 < AWS_UPLOAD_PART_SIZE := by decide
    omega

/-- Function `_md5sum(fobj)` from `storage.py`: multipart digest plus block
count, then `fobj.seek(0, os.SEEK_SET)`.  Returns the result string and
the stream as left behind. -/
def md5sum (env : Env) (fobj : ByteStream) : String × ByteStream :=
  let r := md5sumLoop env fobj 0 []
  (env.md5hex r.2.1 ++ "-" ++ toString r.1, { r.2.2 with pos := 0 })

/-- Consecutive `n`-byte blocks of a byte string (all full except
possibly the last, none empty). -/
def chunksOf {α : Type} (n : Nat) (l : List α) : List (List α) :=
  match n, l with
  | _, [] => []
  | 0, _ :: _ => []
  | m + 1, a :: rest => (a :: rest.take m) :: chunksOf (m + 1) (rest.drop m)
termination_by l.length
decreasing_by
  simp only [List.length_drop, List.length_cons]
  omega

/-- The digest `_md5sum` is specified to compute: the MD5 hex digest of
the concatenation of the raw (unhexlified) MD5 digests of the
consecutive `AWS_UPLOAD_PART_SIZE`-byte blocks, then `"-"` and the
block count. -/
def multipartDigest (env : Env) (content : List Nat) : String :=
  let chunks := chunksOf AWS_UPLOAD_PART_SIZE content
  env.md5hex (List.flatten (chunks.map fun b => env.unhexlify (env.md5hex b)))
    ++ "-" ++ toString chunks.length

/-- The value found under the `"upload"` key of the resource dict:
either an instance of one of `ALLOWED_UPLOAD_TYPES` (carrying a
filename and the underlying stream's contents) or something else. -/
inductive UploadField where
  | allowed (filename : String) (content : List Nat)
  | other
  deriving DecidableEq, Repr

/-- The resource dict, restricted to the keys the adapter reads or
writes.  `clear_upload` is kept as its truthiness. -/
structure Resource where
  upload : Option UploadField := none
  clear_upload : Bool := false
  multipart_name : Option String := none
  id : Option String := none
  url : Option String := none
  url_type : Option String := none
  package_id : String := ""
  last_modified : Option Nat := none
  deriving DecidableEq, Repr

/-- The state of a `ResourceCloudStorage` instance after `__init__`:
the attributes set there plus the (mutated) resource dict. -/
structure RCSState where
  filename : Option String
  old_filename : Option String
  file_upload : List Nat
  clear : Bool
  resource : Resource
  deriving DecidableEq, Repr

/-- The `elif` branches of `__init__` (no usable file upload given). -/
def initRCSRest (env : Env) (popped : Resource) (clear : Bool)
    (multipart_name : Option String) (now : Nat) : RCSState :=
  if truthyOpt multipart_name && can_use_advanced_aws env then
    { filename := none
      old_filename := none
      file_upload := []
      clear := clear
      resource := { popped with
        url := some (env.munge (multipart_name.getD ""))
        url_type := some "upload"
        last_modified := some now } }
  else if clear && truthyOpt popped.id then
    { filename := none
      old_filename := env.dbUrl (popped.id.getD "")
      file_upload := []
      clear := clear
      resource := { popped with url_type := some "" } }
  else
    { filename := none
      old_filename := none
      file_upload := []
      clear := clear
      resource := popped }

/-- Constructor `ResourceCloudStorage.__init__(resource)`.  `now` is
`datetime.utcnow()`.  The `upload`, `clear_upload` and `multipart_name`
keys are popped from the dict; the branches follow the source's
`if`/`elif` chain. -/
def initRCS (env : Env) (res : Resource) (now : Nat) : RCSState :=
  let popped : Resource :=
    { res with upload := none, clear_upload := false, multipart_name := none }
  match res.upload with
  | some (.allowed fn content) =>
    if !fn.isEmpty then
      { filename := some (env.munge fn)
        old_filename := none
        file_upload := content
        clear := res.clear_upload
        resource := { popped with
          url := some (env.munge fn)
          url_type := some "upload"
          last_modified := some now } }
    else initRCSRest env popped res.clear_upload res.multipart_name now
  | some .other => initRCSRest env popped res.clear_upload res.multipart_name now
  | none => initRCSRest env popped res.clear_upload res.multipart_name now

/-- Method `ResourceCloudStorage.path_from_filename(rid, filename)`:
`os.path.join("resources", rid, munge.munge_filename(filename))` for
POSIX paths (a component starting with `/` restarts the path). -/
def pathJoin (a b : String) : String :=
  if b.data.take 1 = ['/'] then b
  else if a.data = [] ∨ a.data.getLast? = some '/' then a ++ b
  else a ++ "/" ++ b

/-- Method `path_from_filename` of the adapter. -/
def path_from_filename (env : Env) (rid filename : String) : String :=
  pathJoin (pathJoin "resources" rid) (env.munge filename)

/-- A storage/SDK call performed by `upload`, with its arguments. -/
inductive UpAction where
  /-- Call `container.upload_object_via_stream(iterator, object_name)`. -/
  | uploadStream (object_name : String) (content : List Nat)
  /-- Call `blob_service.create_blob_from_stream(container_name, blob_name,
  stream, content_settings)` on the advanced Azure path. -/
  | azureBlob (container_name blob_name : String)
      (content_type : Option String) (content : List Nat)
  /-- Call `container.delete_object` of the object under `object_name`. -/
  | deleteObject (object_name : String)
  deriving DecidableEq, Repr

/-- Method `ResourceCloudStorage.upload(id)`.  Returns the list of storage/SDK
calls performed and the resulting libcloud container.  `get_object`
raising `ObjectDoesNotExistError` is the `none` branch of `lookupC`;
the advanced Azure branch writes through the azure SDK, not through the
libcloud container, so it leaves the `Container` value unchanged. -/
def upload (env : Env) (st : RCSState) (container : Container) (id : String) :
    List UpAction × Container :=
  if truthyOpt st.filename then
    let fn := st.filename.getD ""
    if can_use_advanced_azure env then
      let content_settings :=
        if env.guess_mimetype then env.guessType fn else none
      ([.azureBlob env.container_name (path_from_filename env id fn)
          content_settings st.file_upload], container)
    else
      let object_name := path_from_filename env id fn
      let doUpload : List UpAction × Container :=
        ([.uploadStream object_name st.file_upload],
         insertC container object_name (env.storedOf st.file_upload))
      match lookupC container object_name with
      | some cloud_object =>
        let file_size :=
          match env.localFileSize fn with
          | some s => s
          | none => st.file_upload.length
        if file_size = cloud_object.size then
          let hash_file := env.md5hex st.file_upload
          if hash_file = cloud_object.hash then ([], container)
          else
            let multi_hash_file := (md5sum env ⟨st.file_upload, 0⟩).1
            if multi_hash_file = cloud_object.hash then ([], container)
            else doUpload
        else doUpload
      | none => doUpload
  else if st.clear && truthyOpt st.old_filename && !env.leave_files then
    let path := path_from_filename env id (st.old_filename.getD "")
    match lookupC container path with
    | some _ => ([.deleteObject path], eraseC container path)
    | none => ([], container)
  else
    ([], container)

/-- The URL value returned by `get_url_by_path`, kept structured: the
actual URL strings are produced by the SDKs, so each branch records
which SDK call produced the URL and with which arguments. -/
inductive UrlView where
  /-- Azure `make_blob_url` with a shared-access signature expiring at
  the given absolute time. -/
  | azureSigned (container_name path : String) (expiry : Nat)
  /-- boto3 `generate_presigned_url` with the given `ExpiresIn`. -/
  | awsPresigned (bucket key : String) (expiresIn : Nat)
  /-- Result of `driver.get_object_cdn_url(obj)`. -/
  | cdn (u : String)
  /-- the `urljoin("https://" + driver.connection.host,
  container/path)` fallback for S3 drivers. -/
  | s3Host (host container_name path : String)
  /-- the object's `extra["url"]` (Azure driver). -/
  | extra (u : String)
  deriving DecidableEq, Repr

/-- Method `ResourceCloudStorage.get_url_by_path(path)`.  `now` is
`datetime.utcnow()` at the moment of the call.  `Except.error ()` is a
propagated `NotImplementedError`; `Except.ok none` is Python `None`. -/
def get_url_by_path (env : Env) (container : Container) (path : String)
    (now : Nat) : Except Unit (Option UrlView) :=
  if can_use_advanced_azure env && env.use_secure_urls then
    .ok (some (.azureSigned env.container_name path (now + env.secure_ttl)))
  else if can_use_advanced_aws env && env.use_secure_urls then
    .ok (some (.awsPresigned env.container_name path env.secure_ttl))
  else
    match lookupC container path with
    | none => .ok none
    | some obj =>
      if env.cdnSupported then
        .ok (some (.cdn (env.cdnUrlOf path obj)))
      else if strContains "S3" env.driver_name then
        .ok (some (.s3Host env.connectionHost env.container_name path))
      else
        match obj.extra_url with
        | some u => .ok (some (.extra u))
        | none => .error ()

/-- Method `get_url_from_filename(rid, filename)`. -/
def get_url_from_filename (env : Env) (container : Container)
    (rid filename : String) (now : Nat) : Except Unit (Option UrlView) :=
  get_url_by_path env container (path_from_filename env rid filename) now

/-- The dedup check of `upload`, read off the source: an object is
already stored under `path`, its size equals the uploaded content's
length, and its hash equals the plain MD5 hex digest of the contents or
the multipart digest. -/
def dedupHit (env : Env) (cont : Container) (path : String)
    (content : List Nat) : Bool :=
  match lookupC cont path with
  | some obj =>
    content.length == obj.size
      && (env.md5hex content == obj.hash
          || multipartDigest env content == obj.hash)
  | none => false

/-- Whether an action stores the given contents under the given object
name in the remote container (via libcloud or the azure SDK). -/
def storesContentAt (a : UpAction) (path : String) (content : List Nat) :
    Bool :=
  match a with
  | .uploadStream p c => p == path && c == content
  | .azureBlob _ p _ c => p == path && c == content
  | .deleteObject _ => false

/-- Whether one of the two signed-URL branches of `get_url_by_path`
applies: `use_secure_urls` together with advanced Azure or advanced
AWS. -/
def secureBranch (env : Env) : Bool :=
  (can_use_advanced_azure env && env.use_secure_urls)
    || (can_use_advanced_aws env && env.use_secure_urls)

/-- Whether a URL value is signed and time-limited, valid exactly `ttl`
seconds from time `now`. -/
def signedWithTtl (v : UrlView) (now ttl : Nat) : Bool :=
  match v with
  | .azureSigned _ _ expiry => expiry == now + ttl
  | .awsPresigned _ _ expiresIn => expiresIn == ttl
  | _ => false

/-- Whether a URL value is plain and non-expiring. -/
def plainUrl (v : UrlView) : Bool :=
  match v with
  | .cdn _ => true
  | .s3Host _ _ _ => true
  | .extra _ => true
  | _ => false

/-- Claim C2 as stated: on a secure branch the result is a signed URL
valid exactly `secure_ttl` seconds from the call; in every other case
the result is a plain, non-expiring URL for the object. -/
def claimC2 : Prop :=
  ∀ (env : Env) (cont : Container) (path : String) (now : Nat),
    (secureBranch env = true →
      ∃ v, get_url_by_path env cont path now = .ok (some v)
        ∧ signedWithTtl v now env.secure_ttl = true)
    ∧ (secureBranch env = false →
      ∃ v, get_url_by_path env cont path now = .ok (some v)
        ∧ plainUrl v = true)

/-- Claim C4 as stated: the adapter performs no hashing of the uploaded
file's contents itself, so the storage calls it performs cannot depend
on the hashing primitive it is linked against. -/
def claimC4 : Prop :=
  ∀ (e1 e2 : Env) (st : RCSState) (cont : Container) (id : String),
    e1 = { e2 with md5hex := e1.md5hex, unhexlify := e1.unhexlify } →
    (upload e1 st cont id).1 = (upload e2 st cont id).1

/-- A concrete environment used to instantiate the theorems: a plain
non-Azure, non-S3 driver with identity munging and trivial stand-ins
for the external hashing and storage functions. -/
def envBase : Env where
  driver_name := "LOCAL"
  driver_option_keys := ["key", "secret"]
  container_name := "bucket"
  use_secure_urls := false
  leave_files := false
  guess_mimetype := false
  secure_ttl := 3600
  azure_pkg := false
  boto3_pkg := false
  md5hex := fun _ => "md5"
  unhexlify := fun _ => []
  munge := fun s => s
  localFileSize := fun _ => none
  storedOf := fun c => ⟨c.length, "md5", none⟩
  cdnSupported := false
  cdnUrlOf := fun _ _ => "cdn"
  connectionHost := "files.example.org"
  guessType := fun _ => none
  dbUrl := fun _ => none

/-- Environment `envBase` with a hashing primitive that always answers `"H"`. -/
def envHashA : Env := { envBase with md5hex := fun _ => "H" }

/-- Environment `envBase` with a hashing primitive that always answers `"X"`. -/
def envHashB : Env := { envBase with md5hex := fun _ => "X" }

/-- A state as produced by `__init__` for a one-byte file upload named
`file.bin`. -/
def stFile : RCSState where
  filename := some "file.bin"
  old_filename := none
  file_upload := [0]
  clear := false
  resource := {}

/-- A state as produced by `__init__` for a clear-upload request whose
old resource url was `old.bin`. -/
def stClear : RCSState where
  filename := none
  old_filename := some "old.bin"
  file_upload := []
  clear := true
  resource := {}

/-- A container holding one object, under the path `upload` derives for
resource `rid` and filename `file.bin`, whose recorded hash is `"H"`. -/
def contOne : Container := [("resources/rid/file.bin", ⟨1, "H", none⟩)]

/-- A secure advanced-AWS environment: an S3 driver with a `host`
driver option, `boto3` available and `use_secure_urls` on. -/
def envAws : Env := { envBase with
  driver_name := "S3"
  driver_option_keys := ["key", "secret", "host"]
  boto3_pkg := true
  use_secure_urls := true }

theorem chunksOf_nil {α : Type} (n : Nat) : chunksOf n ([] : List α) = [] := by
  rw [chunksOf.eq_def]
  cases n <;> rfl

theorem chunksOf_eq_cons {α : Type} (n : Nat) (hn : n ≠ 0) (l : List α)
    (hl : l ≠ []) : chunksOf n l = l.take n :: chunksOf n (l.drop n) := by
  obtain ⟨m, rfl⟩ := Nat.exists_eq_succ_of_ne_zero hn
  obtain ⟨a, t, rfl⟩ := List.exists_cons_of_ne_nil hl
  rw [chunksOf, List.take_succ_cons, List.drop_succ_cons]

/-- The `_md5sum` loop, started anywhere in the stream, consumes the
remaining data chunk by chunk: it adds one count and one unhexlified
digest per `AWS_UPLOAD_PART_SIZE`-byte block and stops at end of
stream. -/
theorem md5sumLoop_spec (env : Env) (data : List Nat) (pos count : Nat)
    (acc : List Nat) :
    md5sumLoop env ⟨data, pos⟩ count acc =
      (count + (chunksOf AWS_UPLOAD_PART_SIZE (data.drop pos)).length,
       acc ++ List.flatten ((chunksOf AWS_UPLOAD_PART_SIZE (data.drop pos)).map
         (fun b => env.unhexlify (env.md5hex b))),
       ⟨data, pos + (data.drop pos).length⟩) := by
  rw [md5sumLoop]
  split
  next hb =>
    have hrest : data.drop pos = [] := by
      rcases (List.take_eq_nil_iff).mp hb with h | h
      · exact absurd h (by decide)
      · exact h
    rw [hrest, chunksOf_nil]
    simp
  next hb =>
    have hN : AWS_UPLOAD_PART_SIZE ≠ 0 := by decide
    have hrest : data.drop pos ≠ [] := by
      intro h0
      apply hb
      show (data.drop pos).take AWS_UPLOAD_PART_SIZE = []
      rw [h0]
      rfl
    have hpos : pos < data.length := by
      by_contra hc
      apply hrest
      exact List.drop_eq_nil_of_le (by omega)
    have hlen : ((data.drop pos).take AWS_UPLOAD_PART_SIZE).length
        = min AWS_UPLOAD_PART_SIZE (data.drop pos).length := by
      rw [List.length_take]
    have hdrop2 : data.drop (pos + ((data.drop pos).take
        AWS_UPLOAD_PART_SIZE).length) = (data.drop pos).drop
        AWS_UPLOAD_PART_SIZE := by
      rw [← List.drop_drop]
      rcases Nat.le_total AWS_UPLOAD_PART_SIZE (data.drop pos).length
        with hle | hle
      · have h1 : ((data.drop pos).take AWS_UPLOAD_PART_SIZE).length
            = AWS_UPLOAD_PART_SIZE := by
          rw [hlen]
          omega
        rw [h1]
      · have h1 : ((data.drop pos).take AWS_UPLOAD_PART_SIZE).length
            = (data.drop pos).length := by
          rw [hlen]
          omega
        rw [h1, List.drop_length]
        exact (List.drop_eq_nil_of_le hle).symm
    rw [md5sumLoop_spec env data
      (pos + ((data.drop pos).take AWS_UPLOAD_PART_SIZE).length)
      (count + 1)
      (acc ++ env.unhexlify (env.md5hex
        ((data.drop pos).take AWS_UPLOAD_PART_SIZE)))]
    rw [hdrop2, chunksOf_eq_cons AWS_UPLOAD_PART_SIZE hN (data.drop pos) hrest]
    refine congrArg₂ Prod.mk ?_ (congrArg₂ Prod.mk ?_ ?_)
    · simp only [List.length_cons]
      omega
    · simp [List.append_assoc]
    · have h2 : ((data.drop pos).drop AWS_UPLOAD_PART_SIZE).length
          = (data.drop pos).length - AWS_UPLOAD_PART_SIZE := by
        rw [List.length_drop]
      refine congrArg (ByteStream.mk data) ?_
      rw [h2, hlen, List.length_drop]
      omega
termination_by data.length - pos
decreasing_by
  simp only [List.length_take, List.length_drop]
  have hA : 0 < AWS_UPLOAD_PART_SIZE := by decide
  omega

/-- Lemma: `_md5sum` computes the multipart digest of the data from the
current offset onwards and rewinds the stream. -/
theorem md5sum_spec (env : Env) (data : List Nat) (pos : Nat) :
    md5sum env ⟨data, pos⟩ = (multipartDigest env (data.drop pos), ⟨data, 0⟩) := by
  unfold md5sum
  rw [md5sumLoop_spec]
  simp [multipartDigest]

/-- A byte string of at most one part has a one-block multipart digest. -/
theorem multipartDigest_single (env : Env) (content : List Nat)
    (h1 : content ≠ []) (h2 : content.length ≤ AWS_UPLOAD_PART_SIZE) :
    multipartDigest env content
      = env.md5hex (env.unhexlify (env.md5hex content)) ++ "-" ++ toString 1 := by
  unfold multipartDigest
  rw [chunksOf_eq_cons _ (by decide) _ h1, List.take_of_length_le h2,
    List.drop_eq_nil_of_le h2, chunksOf_nil]
  simp

theorem truthyOpt_some {s : String} (h : s ≠ "") :
    truthyOpt (some s) = true := by
  simp only [truthyOpt, Bool.not_eq_true']
  rw [← Bool.not_eq_true]
  intro hc
  exact h ((String.isEmpty_iff s).mp hc)

theorem md5sum_fst (env : Env) (content : List Nat) :
    (md5sum env ⟨content, 0⟩).1 = multipartDigest env content := by
  rw [md5sum_spec]
  simp

/-- Lemma: `upload` with a pending file upload, off the advanced-Azure path
and with no interfering local file: it is a no-op exactly on a dedup
hit and otherwise uploads via `upload_object_via_stream` under
`path_from_filename id filename`. -/
theorem upload_file_spec (env : Env) (st : RCSState) (cont : Container)
    (id fn : String) (hfn : st.filename = some fn) (hfn2 : fn ≠ "")
    (haz : can_use_advanced_azure env = false)
    (hlocal : env.localFileSize fn = none) :
    upload env st cont id =
      if dedupHit env cont (path_from_filename env id fn) st.file_upload
      then ([], cont)
      else ([.uploadStream (path_from_filename env id fn) st.file_upload],
            insertC cont (path_from_filename env id fn)
              (env.storedOf st.file_upload)) := by
  unfold upload dedupHit
  rw [hfn]
  simp only [truthyOpt_some hfn2, if_true, Option.getD_some, haz,
    Bool.false_eq_true, if_false]
  cases hl : lookupC cont (path_from_filename env id fn) with
  | none => simp
  | some obj =>
    rw [hlocal]
    simp only [md5sum_fst]
    by_cases hsz : st.file_upload.length = obj.size
    · by_cases hh1 : env.md5hex st.file_upload = obj.hash
      · simp [hsz, hh1]
      · by_cases hh2 : multipartDigest env st.file_upload = obj.hash
        · simp [hsz, hh1, hh2]
        · simp [hsz, hh1, hh2]
    · simp [hsz]

theorem bnot_isEmpty {s : String} (h : s ≠ "") : (!s.isEmpty) = true :=
  truthyOpt_some h

/-- C1: with a pending file upload on the non-advanced-Azure path, if an
object already exists at `path_from_filename(id, filename)` with the
uploaded file's size and a hash equal to the plain MD5 hex digest of the
contents or to the `_md5sum` multipart digest, `upload` returns without
re-uploading and leaves the container unchanged; in every other case the
file is uploaded via `upload_object_via_stream` under that same path
(stated under the assumption that no local file named the munged
filename shadows the size check, i.e. `os.path.isfile` is false). -/
theorem upload_dedup_c1 (env : Env) (st : RCSState) (cont : Container)
    (id fn : String) (hfn : st.filename = some fn) (hfn2 : fn ≠ "")
    (haz : can_use_advanced_azure env = false)
    (hlocal : env.localFileSize fn = none) :
    upload env st cont id =
      if dedupHit env cont (path_from_filename env id fn) st.file_upload
      then ([], cont)
      else ([.uploadStream (path_from_filename env id fn) st.file_upload],
            insertC cont (path_from_filename env id fn)
              (env.storedOf st.file_upload)) :=
  upload_file_spec env st cont id fn hfn hfn2 haz hlocal

/-- Witness for C1 at a concrete input: the stored object has matching
size and hash, so `upload` is a no-op. -/
theorem upload_dedup_c1_witness :
    upload envHashA stFile contOne "rid" = ([], contOne) := by
  have h := upload_dedup_c1 envHashA stFile contOne "rid" "file.bin" rfl
    (by decide) rfl rfl
  rw [h]
  rfl

/-- C7: `_md5sum` returns the MD5 hex digest of the concatenation of the
raw (unhexlified) MD5 digests of the stream's consecutive
`5*1024*1024`-byte blocks, followed by `"-"` and the block count, and it
leaves the stream repositioned at offset 0; for the empty stream the
result is the MD5 hex digest of the empty byte string followed by
`"-0"`. -/
theorem md5sum_c7 (env : Env) (content : List Nat) :
    md5sum env ⟨content, 0⟩ =
      (env.md5hex (List.flatten ((chunksOf AWS_UPLOAD_PART_SIZE content).map
          (fun b => env.unhexlify (env.md5hex b)))
        ) ++ "-" ++ toString (chunksOf AWS_UPLOAD_PART_SIZE content).length,
       ⟨content, 0⟩)
    ∧ md5sum env ⟨[], 0⟩ = (env.md5hex [] ++ "-0", ⟨[], 0⟩) := by
  constructor
  · rw [md5sum_spec]
    simp [multipartDigest]
  · rw [md5sum_spec]
    simp [multipartDigest, chunksOf_nil]
    rw [String.append_assoc]
    rfl

/-- Every run of `upload` performs no call, a single
`upload_object_via_stream`, a single azure `create_blob_from_stream`, or
— only with `clear_upload` requested, an old filename recorded and
`leave_files` off — a single `delete_object`. -/
theorem upload_actions_shape (env : Env) (st : RCSState) (cont : Container)
    (id : String) :
    (upload env st cont id).1 = []
    ∨ (∃ objName c, (upload env st cont id).1 = [.uploadStream objName c])
    ∨ (∃ cn bn ct c, (upload env st cont id).1 = [.azureBlob cn bn ct c])
    ∨ (st.clear = true ∧ truthyOpt st.old_filename = true
        ∧ env.leave_files = false
        ∧ ∃ p, (upload env st cont id).1 = [.deleteObject p]) := by
  unfold upload
  dsimp only
  split
  · split
    · right; right; left
      exact ⟨_, _, _, _, rfl⟩
    · split
      · split
        · split
          · left; rfl
          · split
            · left; rfl
            · right; left; exact ⟨_, _, rfl⟩
        · right; left; exact ⟨_, _, rfl⟩
      · right; left; exact ⟨_, _, rfl⟩
  · split
    next hcond =>
      simp only [Bool.and_eq_true, Bool.not_eq_true'] at hcond
      split
      · right; right; right
        exact ⟨hcond.1.1, hcond.1.2, hcond.2, _, rfl⟩
      · left; rfl
    · left; rfl

/-- C6: if `leave_files` is configured, `upload` never deletes an object
from the container; a delete happens only when a clear was requested, an
old filename was recorded at construction, and `leave_files` is off. -/
theorem upload_delete_only_clear_c6 (env : Env) (st : RCSState)
    (cont : Container) (id : String) :
    (env.leave_files = true →
      ∀ p, UpAction.deleteObject p ∉ (upload env st cont id).1)
    ∧ (∀ p, UpAction.deleteObject p ∈ (upload env st cont id).1 →
        st.clear = true ∧ truthyOpt st.old_filename = true
          ∧ env.leave_files = false) := by
  have hs := upload_actions_shape env st cont id
  constructor
  · intro hl p hp
    rcases hs with h | ⟨objName, c, h⟩ | ⟨cn, bn, ct, c, h⟩ | ⟨_, _, hlf, p', h⟩
    · rw [h] at hp
      exact List.not_mem_nil _ hp
    · rw [h] at hp
      simp at hp
    · rw [h] at hp
      simp at hp
    · rw [hl] at hlf
      cases hlf
  · intro p hp
    rcases hs with h | ⟨objName, c, h⟩ | ⟨cn, bn, ct, c, h⟩ | ⟨hc, ho, hlf, p', h⟩
    · rw [h] at hp
      exact absurd hp (List.not_mem_nil _)
    · rw [h] at hp
      simp at hp
    · rw [h] at hp
      simp at hp
    · exact ⟨hc, ho, hlf⟩

/-- Witness for C6: with `leave_files` on, a clear-upload run deletes
nothing. -/
theorem upload_delete_only_clear_c6_witness :
    UpAction.deleteObject "resources/rid/old.bin"
      ∉ (upload { envBase with leave_files := true } stClear contOne "rid").1 :=
  (upload_delete_only_clear_c6 { envBase with leave_files := true } stClear
    contOne "rid").1 rfl "resources/rid/old.bin"

/-- C5: `ObjectDoesNotExistError` is handled, not propagated: when no
secure-URL branch applies and no object exists at the path,
`get_url_by_path` returns `None`; and in the clear-upload case `upload`
returns normally when the old object is already absent. -/
theorem no_objdne_c5 (env : Env) (st : RCSState) (cont : Container)
    (path id ofn : String) (now : Nat) :
    (secureBranch env = false → lookupC cont path = none →
      get_url_by_path env cont path now = .ok none)
    ∧ (st.filename = none → st.clear = true → st.old_filename = some ofn →
      ofn ≠ "" → env.leave_files = false →
      lookupC cont (path_from_filename env id ofn) = none →
      upload env st cont id = ([], cont)) := by
  constructor
  · intro hsec hl
    unfold get_url_by_path
    simp only [secureBranch, Bool.or_eq_false_iff] at hsec
    rw [hsec.1, hsec.2]
    simp only [Bool.false_eq_true, if_false]
    rw [hl]
  · intro hfn hc ho hne hlf hl
    unfold upload
    rw [hfn, hc, ho, hlf]
    have h1 : truthyOpt (none : Option String) = false := rfl
    rw [h1]
    simp only [Bool.false_eq_true, if_false]
    have h2 : (true && truthyOpt (some ofn) && !false) = true := by
      simp [truthyOpt_some hne]
    rw [h2]
    simp only [if_true, Option.getD_some]
    rw [hl]

/-- Witness for C5 at concrete inputs: a missing object yields `None`
from `get_url_by_path`, and a clear-upload with the old object absent
returns normally. -/
theorem no_objdne_c5_witness :
    get_url_by_path envBase [] "p" 0 = .ok none
    ∧ upload envBase stClear contOne "rid" = ([], contOne) :=
  ⟨(no_objdne_c5 envBase stClear [] "p" "rid" "old.bin" 0).1 rfl rfl,
   (no_objdne_c5 envBase stClear contOne "p" "rid" "old.bin" 0).2 rfl rfl rfl
     (by decide) rfl rfl⟩

/-- Counterexample to C2 as stated: with no secure branch and no object
at the path, `get_url_by_path` returns `None`, not a plain URL. -/
theorem get_url_c2_counterexample : ¬ claimC2 := by
  intro h
  obtain ⟨v, hv, _⟩ := (h envBase [] "p" 0).2 rfl
  rw [show get_url_by_path envBase [] "p" 0 = Except.ok none from rfl] at hv
  simp at hv

/-- C2 (amended): on a secure branch the URL is signed with validity
exactly `secure_ttl` seconds from the call; otherwise any URL returned
is plain and non-expiring, a missing object yields `None`, a plain URL
is in fact returned whenever the object exists and one of the three URL
sources (CDN support, S3 host fallback, recorded extra url) applies,
and when the object exists but none of the three URL sources applies
the `NotImplementedError` propagates. -/
theorem get_url_c2_amended (env : Env) (cont : Container) (path : String)
    (now : Nat) :
    (secureBranch env = true →
      ∃ v, get_url_by_path env cont path now = .ok (some v)
        ∧ signedWithTtl v now env.secure_ttl = true)
    ∧ (secureBranch env = false →
      (lookupC cont path = none → get_url_by_path env cont path now = .ok none)
      ∧ (∀ v, get_url_by_path env cont path now = .ok (some v) →
          plainUrl v = true)
      ∧ (∀ obj, lookupC cont path = some obj →
          env.cdnSupported = true ∨ strContains "S3" env.driver_name = true
            ∨ obj.extra_url ≠ none →
          ∃ v, get_url_by_path env cont path now = .ok (some v)
            ∧ plainUrl v = true)
      ∧ (∀ obj, lookupC cont path = some obj →
          env.cdnSupported = false → strContains "S3" env.driver_name = false →
          obj.extra_url = none →
          get_url_by_path env cont path now = .error ())) := by
  by_cases h1 : (can_use_advanced_azure env && env.use_secure_urls) = true
  · constructor
    · intro _
      refine ⟨.azureSigned env.container_name path (now + env.secure_ttl),
        ?_, ?_⟩
      · unfold get_url_by_path
        rw [if_pos h1]
      · simp [signedWithTtl]
    · intro hs
      simp [secureBranch, h1] at hs
  · by_cases h2 : (can_use_advanced_aws env && env.use_secure_urls) = true
    · constructor
      · intro _
        refine ⟨.awsPresigned env.container_name path env.secure_ttl, ?_, ?_⟩
        · unfold get_url_by_path
          rw [if_neg h1, if_pos h2]
        · simp [signedWithTtl]
      · intro hs
        simp [secureBranch, h2] at hs
    · have hsec : secureBranch env = false := by
        have h1' : (can_use_advanced_azure env && env.use_secure_urls)
            = false := by simpa using h1
        have h2' : (can_use_advanced_aws env && env.use_secure_urls)
            = false := by simpa using h2
        unfold secureBranch
        rw [h1', h2']
        rfl
      constructor
      · intro hs
        rw [hsec] at hs
        cases hs
      · intro _
        refine ⟨?_, ?_, ?_, ?_⟩
        · intro hl
          unfold get_url_by_path
          rw [if_neg h1, if_neg h2, hl]
        · intro v hv
          unfold get_url_by_path at hv
          rw [if_neg h1, if_neg h2] at hv
          cases hl : lookupC cont path with
          | none =>
            simp only [hl] at hv
            simp at hv
          | some obj =>
            simp only [hl] at hv
            split at hv
            · simp only [Except.ok.injEq, Option.some.injEq] at hv
              rw [← hv]
              rfl
            · split at hv
              · simp only [Except.ok.injEq, Option.some.injEq] at hv
                rw [← hv]
                rfl
              · split at hv
                · simp only [Except.ok.injEq, Option.some.injEq] at hv
                  rw [← hv]
                  rfl
                · simp at hv
        · intro obj hobj hcase
          by_cases hcdn : env.cdnSupported = true
          · refine ⟨.cdn (env.cdnUrlOf path obj), ?_, rfl⟩
            unfold get_url_by_path
            rw [if_neg h1, if_neg h2]
            simp only [hobj]
            rw [if_pos hcdn]
          · by_cases hs3 : strContains "S3" env.driver_name = true
            · refine ⟨.s3Host env.connectionHost env.container_name path,
                ?_, rfl⟩
              unfold get_url_by_path
              rw [if_neg h1, if_neg h2]
              simp only [hobj]
              rw [if_neg hcdn, if_pos hs3]
            · rcases hcase with hc | hc | hc
              · exact absurd hc hcdn
              · exact absurd hc hs3
              · obtain ⟨u, hu⟩ := Option.ne_none_iff_exists'.mp hc
                refine ⟨.extra u, ?_, rfl⟩
                unfold get_url_by_path
                rw [if_neg h1, if_neg h2]
                simp only [hobj]
                rw [if_neg hcdn, if_neg hs3]
                simp only [hu]
        · intro obj hobj hcdn hs3 hx
          unfold get_url_by_path
          rw [if_neg h1, if_neg h2]
          simp only [hobj]
          rw [if_neg (by rw [hcdn]; exact Bool.false_ne_true),
            if_neg (by rw [hs3]; exact Bool.false_ne_true)]
          simp only [hx]

/-- Witness for the amended C2: a secure advanced-AWS configuration
yields a presigned URL valid exactly `secure_ttl` seconds. -/
theorem get_url_c2_amended_witness :
    ∃ v, get_url_by_path envAws [] "p" 5 = .ok (some v)
      ∧ signedWithTtl v 5 envAws.secure_ttl = true :=
  (get_url_c2_amended envAws [] "p" 5).1 rfl

/-- C3: a resource constructed with a provided file upload (allowed
type, non-empty filename) gets `url` set to the munged filename and
`url_type` to `"upload"`, and `upload` stores the file's contents in
the remote container under `path_from_filename(id, filename)` (every
store action of the model targets the remote container; the model has
no local-disk write).  Stated for a fresh path, so that the store is
not skipped by the dedup check. -/
theorem init_upload_stores_c3 (env : Env) (res : Resource) (now : Nat)
    (cont : Container) (id fn : String) (content : List Nat)
    (hup : res.upload = some (.allowed fn content)) (hfn : fn ≠ "")
    (hm : env.munge fn ≠ "")
    (hfresh : lookupC cont (path_from_filename env id (env.munge fn)) = none) :
    (initRCS env res now).resource.url = some (env.munge fn)
    ∧ (initRCS env res now).resource.url_type = some "upload"
    ∧ ∃ a ∈ (upload env (initRCS env res now) cont id).1,
        storesContentAt a (path_from_filename env id (env.munge fn)) content
          = true := by
  have hst : initRCS env res now =
      { filename := some (env.munge fn)
        old_filename := none
        file_upload := content
        clear := res.clear_upload
        resource := { res with
          upload := none
          clear_upload := false
          multipart_name := none
          url := some (env.munge fn)
          url_type := some "upload"
          last_modified := some now } } := by
    unfold initRCS
    rw [hup]
    simp [bnot_isEmpty hfn]
  refine ⟨by rw [hst], by rw [hst], ?_⟩
  by_cases haz : can_use_advanced_azure env = true
  · refine ⟨.azureBlob env.container_name
      (path_from_filename env id (env.munge fn))
      (if env.guess_mimetype then env.guessType (env.munge fn) else none)
      content, ?_, ?_⟩
    · unfold upload
      rw [hst]
      dsimp only
      simp [truthyOpt_some hm, haz]
    · simp [storesContentAt]
  · have haz' : can_use_advanced_azure env = false := by simpa using haz
    refine ⟨.uploadStream (path_from_filename env id (env.munge fn))
      content, ?_, ?_⟩
    · unfold upload
      rw [hst]
      dsimp only
      simp only [truthyOpt_some hm, if_true, Option.getD_some, haz',
        Bool.false_eq_true, if_false]
      simp only [hfresh]
      simp
    · simp [storesContentAt]

/-- Witness for C3 at a concrete input. -/
theorem init_upload_stores_c3_witness :
    (initRCS envBase { upload := some (.allowed "a.txt" [7]) } 5).resource.url
        = some "a.txt"
    ∧ (initRCS envBase { upload := some (.allowed "a.txt" [7]) }
        5).resource.url_type = some "upload"
    ∧ ∃ a ∈ (upload envBase
        (initRCS envBase { upload := some (.allowed "a.txt" [7]) } 5)
        [] "rid").1,
        storesContentAt a (path_from_filename envBase "rid" "a.txt") [7]
          = true :=
  init_upload_stores_c3 envBase { upload := some (.allowed "a.txt" [7]) } 5
    [] "rid" "a.txt" [7] rfl (by decide) (by decide) rfl

/-- Counterexample to C4 as stated: the storage calls `upload` performs
depend on the hashing primitive applied to the uploaded contents, so
the adapter does compute hashes of the file itself (lines 297 and 311
of `storage.py`). -/
theorem hash_dep_c4_counterexample : ¬ claimC4 := by
  intro h
  have hc := h envHashA envHashB stFile contOne "rid" rfl
  have hA : (upload envHashA stFile contOne "rid").1 = [] := rfl
  have hd : dedupHit envHashB contOne "resources/rid/file.bin" [0]
      = false := by
    unfold dedupHit
    rw [show lookupC contOne "resources/rid/file.bin"
        = some ⟨1, "H", none⟩ from rfl]
    rw [multipartDigest_single envHashB [0] (by decide) (by decide)]
    decide
  have hB : (upload envHashB stFile contOne "rid").1
      = [.uploadStream "resources/rid/file.bin" [0]] := by
    rw [upload_file_spec envHashB stFile contOne "rid" "file.bin" rfl
      (by decide) rfl rfl]
    rw [show path_from_filename envHashB "rid" "file.bin"
        = "resources/rid/file.bin" from rfl,
      show stFile.file_upload = [0] from rfl]
    rw [hd]
    rfl
  rw [hA, hB] at hc
  cases hc

/-- C4 (amended): the adapter delegates the MD5 primitive to `hashlib`
but does itself hash the uploaded file's contents in `upload`'s dedup
check: with an existing object of matching size, the upload is skipped
exactly when the self-computed plain MD5 digest or the self-computed
`_md5sum` multipart digest of the contents equals the stored hash. -/
theorem upload_hash_self_c4_amended (env : Env) (st : RCSState)
    (cont : Container) (id fn : String) (obj : StoredObj)
    (hfn : st.filename = some fn) (hfn2 : fn ≠ "")
    (haz : can_use_advanced_azure env = false)
    (hlocal : env.localFileSize fn = none)
    (hl : lookupC cont (path_from_filename env id fn) = some obj)
    (hsz : st.file_upload.length = obj.size) :
    (upload env st cont id).1 = []
      ↔ (env.md5hex st.file_upload = obj.hash
          ∨ multipartDigest env st.file_upload = obj.hash) := by
  rw [upload_file_spec env st cont id fn hfn hfn2 haz hlocal]
  unfold dedupHit
  simp only [hl]
  by_cases hh1 : env.md5hex st.file_upload = obj.hash
  · simp [hsz, hh1]
  · by_cases hh2 : multipartDigest env st.file_upload = obj.hash
    · simp [hsz, hh1, hh2]
    · simp [hsz, hh1, hh2]

/-- Witness for the amended C4 at a concrete input: the stored hash
matches the self-computed digest, so the upload is skipped. -/
theorem upload_hash_self_c4_amended_witness :
    (upload envHashA stFile contOne "rid").1 = [] :=
  (upload_hash_self_c4_amended envHashA stFile contOne "rid" "file.bin"
    ⟨1, "H", none⟩ rfl (by decide) rfl rfl rfl rfl).mpr (Or.inl rfl)

end Cloudstorage
